import Mathlib

/-!
Verification of the event core of calcurse (src/src/event.c): the in-memory
Event Store (a sorted intrusive list keyed by day and message), the canonical
one-line text codec, the identity hasher and the filtered loader.

Character strings of the C code are embedded as lists of bytes (`List Nat`);
`time_t` values and C `int`s as `Int`.  The intrusive linked list of the store
is embedded as a list of (allocation tag, record) pairs: the tag plays the
role of the node's address, so that removal "by identity" (pointer equality in
`LLIST_FIND_FIRST`) is removal by tag.  Collaborators that are outside the
given source file (llist.c, utils.c, sha1.c, the calcurse.h macros and the C
library stream/calendar functions) are modelled from the specification; each
such definition carries a doc comment saying so.
-/

namespace Calcurse

/-- Byte-wise comparison of two C strings, the semantics of strcmp on the
NUL-free byte lists that embed them: negative when the first is smaller,
zero on equality, positive when the first is larger. -/
def strcmp : List Nat → List Nat → Int
  | [], [] => 0
  | [], _ :: _ => -1
  | _ :: _, [] => 1
  | a :: as, b :: bs =>
    if a < b then -1 else if b < a then 1 else strcmp as bs

/-- Truncation of a line buffer at its first newline byte, the effect of the
strchr/assignment pair at event.c lines 168-171; a buffer with no newline is
returned unchanged. -/
def strip_newline : List Nat → List Nat
  | [] => []
  | b :: bs => if b = 10 then [] else b :: strip_newline bs

/-- Modelled from the spec: the C library constant BUFSIZ sizing the line
buffer of the loader (8192 on glibc). -/
def BUFSIZ : Nat := 8192

/-- Reading step of fgets: consume at most `fuel` bytes from the stream,
stopping after a newline; returns the bytes read and the remaining stream. -/
def fgets_take : Nat → List Nat → List Nat × List Nat
  | 0, f => ([], f)
  | _ + 1, [] => ([], [])
  | fuel + 1, b :: bs =>
    if b = 10 then ([10], bs)
    else
      let r := fgets_take fuel bs
      (b :: r.1, r.2)

/-- Modelled from the spec: the C library fgets(buf, n, f) used by the loader:
reads at most n - 1 bytes, stopping after a newline, and fails (NULL) exactly
when the stream is exhausted before any byte is read. -/
def fgets (n : Nat) (f : List Nat) : Option (List Nat × List Nat) :=
  if f = [] then none else some (fgets_take (n - 1) f)

/-- Decimal digit run of a positive number, most significant first, as ASCII
bytes; the fuel argument bounds the recursion depth. -/
def nat_digits_fuel : Nat → Nat → List Nat
  | 0, _ => []
  | fuel + 1, n => if n = 0 then [] else nat_digits_fuel fuel (n / 10) ++ [48 + n % 10]

/-- Decimal rendering of a natural number as ASCII bytes, as the %u family of
printf directives produces it. -/
def nat_tostr (n : Nat) : List Nat :=
  if n = 0 then [48] else nat_digits_fuel n n

/-- Zero-padded decimal rendering to a minimum width, the semantics of the
%02u and %04u directives of event_tostr. -/
def pad_zeros (w : Nat) (n : Nat) : List Nat :=
  List.replicate (w - (nat_tostr n).length) 48 ++ nat_tostr n

/-- Signed decimal rendering, the semantics of the %d directive. -/
def int_tostr (i : Int) : List Nat :=
  if i < 0 then 45 :: nat_tostr (-i).toNat else nat_tostr i.toNat

/-- Conversion of a C int to the unsigned value a %u directive prints,
reduction modulo 2^32. -/
def u32 (i : Int) : Nat := (Int.emod i 4294967296).toNat

/-- Hexadecimal digit as a lowercase ASCII byte. -/
def hex_digit (n : Nat) : Nat := if n < 10 then 48 + n else 87 + n

/-- Lowercase hexadecimal digit run of a positive number, most significant
first, as ASCII bytes; the fuel argument bounds the recursion depth. -/
def hex_digits_fuel : Nat → Nat → List Nat
  | 0, _ => []
  | fuel + 1, n => if n = 0 then [] else hex_digits_fuel fuel (n / 16) ++ [hex_digit (n % 16)]

/-- Modelled from the spec: sha1_digest from sha1.c (not under src/).  The
spec requires a deterministic content digest of the canonical text, rendered
as a fixed-length lowercase hexadecimal string of SHA1_DIGESTLEN * 2 = 40
characters; the compression function here is a stand-in, since the claims
depend only on determinism and on the output being a pure function of the
input text. -/
def sha1_digest (raw : List Nat) : List Nat :=
  let m : Nat := 1461501637330902918203684832716283019655932542976
  let h : Nat := raw.foldl (fun acc b => (acc * 131 + b + 1) % m) 0
  let ds : List Nat := hex_digits_fuel 40 h
  List.replicate (40 - ds.length) 48 ++ ds

/-- Modelled from the spec: hash_matches from utils.c (not under src/): the
test whether the filter's configured target hash matches a computed identity
hash, modelled as equality of the two hex strings. -/
def hash_matches (pattern hash : List Nat) : Bool := pattern == hash

/-- Modelled from the spec: the calendar validity test check_date from
utils.c (not under src/), an assumed-correct collaborator; months run 1-12
and month days 1-31 per the persisted grammar, years are positive. -/
def check_date (year month day : Int) : Bool :=
  decide (1 ≤ month ∧ month ≤ 12 ∧ 1 ≤ day ∧ day ≤ 31 ∧ 1 ≤ year)

/-- Modelled from the spec: the time validity test check_time from utils.c
(not under src/): hours run 0-23 and minutes 0-59. -/
def check_time (hour minute : Int) : Bool :=
  decide (0 ≤ hour ∧ hour < 24 ∧ 0 ≤ minute ∧ minute < 60)

/-- Modelled from the spec: the calcurse.h constant DAYINSEC, the number of
seconds in a calendar day. -/
def DAYINSEC : Int := 86400

/-- Modelled from the spec: the calcurse.h macro ENDOFDAY, the last
representable second of the calendar day that starts at t. -/
def ENDOFDAY (t : Int) : Int := t + DAYINSEC - 1

/-- Modelled from the spec: the calcurse.h type-mask bit selecting plain
events in a filter specification. -/
def TYPE_MASK_EVNT : Nat := 1

/-- Broken-down calendar time, the struct tm of the C library restricted to
the fields event.c reads and writes. -/
structure Tm where
  tm_year : Int
  tm_mon : Int
  tm_mday : Int
  tm_hour : Int
  tm_min : Int
  tm_sec : Int
  tm_isdst : Int
deriving DecidableEq

/-- Modelled from the spec: the calendar collaborators of the C library.
`localtime` is localtime_r, breaking a timestamp into calendar fields;
`mktime` converts calendar fields back to a timestamp, with -1 signalling an
unrepresentable date. -/
structure Cal where
  localtime : Int → Tm
  mktime : Tm → Int

/-- Event record, struct event of event.c: caller-assigned identifier, the
day timestamp that keys the store, the message text and the optional note
reference. -/
structure Event where
  id : Int
  day : Int
  mesg : List Nat
  note : Option (List Nat)
deriving DecidableEq

/-- The Event Store embedded as a list of (allocation tag, record) pairs in
list order; the tag stands for the address of the list node, so identity
lookups are tag lookups. -/
abbrev Store := List (Nat × Event)

/-- Comparator of event.c lines 83-91: day first, numerically ascending, then
the message, byte-wise via strcmp; the identifier and note take no part. -/
def event_cmp (a b : Event) : Int :=
  if a.day < b.day then -1
  else if a.day > b.day then 1
  else strcmp a.mesg b.mesg

/-- Payload comparator handed to the list macros: LLIST_ADD_SORTED compares
the records held by two nodes, never the node addresses. -/
def event_cmp_data (a b : Nat × Event) : Int := event_cmp a.2 b.2

/-- Modelled from the spec: LLIST_ADD_SORTED from llist.c (not under src/):
inserts the new element at the position preserving the comparator order,
after any elements that compare equal to it. -/
def llist_add_sorted {α : Type} (cmp : α → α → Int) (e : α) : List α → List α
  | [] => [e]
  | x :: xs => if cmp e x < 0 then e :: x :: xs else x :: llist_add_sorted cmp e xs

/-- Deep copy of a record, event_dup of event.c lines 56-70; the EXIT_IF on a
null argument cannot arise here because the argument type has no null. -/
def event_dup (e : Event) : Event :=
  { id := e.id, day := e.day, mesg := e.mesg,
    note := match e.note with | some n => some n | none => none }

/-- Creation of a new record, event_new of event.c lines 94-107: the fields
are deep-copied, the record is inserted into the store in sorted order under
a fresh allocation tag; returns the stored record with its tag, the new store
and the next fresh tag. -/
def event_new (mesg : List Nat) (note : Option (List Nat)) (day : Int) (id : Int)
    (store : Store) (ctr : Nat) : (Nat × Event) × Store × Nat :=
  let ev : Event := { id := id, day := day, mesg := mesg, note := note }
  ((ctr, ev), llist_add_sorted event_cmp_data (ctr, ev) store, ctr + 1)

/-- Canonical one-line rendering, event_tostr of event.c lines 115-132: the
zero-padded date of the record's day, the identifier in brackets, the
optional note token, then the message verbatim. -/
def event_tostr (cal : Cal) (o : Event) : List Nat :=
  let lt := cal.localtime o.day
  pad_zeros 2 (u32 (lt.tm_mon + 1)) ++ [47] ++
  pad_zeros 2 (u32 lt.tm_mday) ++ [47] ++
  pad_zeros 4 (u32 (1900 + lt.tm_year)) ++ [32, 91] ++
  int_tostr o.id ++ [93, 32] ++
  (match o.note with | some nt => [62] ++ nt ++ [32] | none => []) ++
  o.mesg

/-- Identity hash, event_hash of event.c lines 134-142: the digest of the
canonical rendered text. -/
def event_hash (cal : Cal) (ev : Event) : List Nat :=
  sha1_digest (event_tostr cal ev)

/-- Persistence write, event_write of event.c lines 144-149: append the
rendered line and a single newline to the output stream. -/
def event_write (cal : Cal) (o : Event) (f : List Nat) : List Nat :=
  f ++ event_tostr cal o ++ [10]

/-- Deletion by identity, event_delete of event.c lines 213-221: locate the
first node whose tag matches and unlink it; `none` embeds the fatal EXIT
taken when no node matches. -/
def event_delete (tag : Nat) : Store → Option Store
  | [] => none
  | x :: xs =>
    if x.1 = tag then some xs
    else (event_delete tag xs).map (fun s => x :: s)

/-- Re-insertion after a date change, event_paste_item of event.c lines
223-227: the day field is reassigned, then the record is inserted in sorted
order. -/
def event_paste_item (tag : Nat) (ev : Event) (date : Int) (store : Store) : Store :=
  llist_add_sorted event_cmp_data (tag, { ev with day := date }) store

/-- Modelled from the spec: struct item_filter from calcurse.h (not under
src/), the filter specification consumed by the loader: the type mask, the
optional compiled regular expression (embedded as its match predicate), the
four optional bound timestamps with -1 as the unset sentinel, the optional
target hash and the invert flag. -/
structure ItemFilter where
  type_mask : Nat
  regex : Option (List Nat → Bool)
  start_from : Int
  start_to : Int
  end_from : Int
  end_to : Int
  hash : Option (List Nat)
  invert : Bool

/-- Exclusion disjunction of event.c lines 186-193, the six hash-free
clauses of the filter: missing type bit, configured-and-unmatched regular
expression, and the four configured-and-violated range bounds. -/
def event_filter_cond (flt : ItemFilter) (buf : List Nat) (tstart tend : Int) : Bool :=
  decide (flt.type_mask &&& TYPE_MASK_EVNT = 0) ||
  (match flt.regex with | some re => !re buf | none => false) ||
  (decide (flt.start_from ≠ -1) && decide (tstart < flt.start_from)) ||
  (decide (flt.start_to ≠ -1) && decide (tstart > flt.start_to)) ||
  (decide (flt.end_from ≠ -1) && decide (tend < flt.end_from)) ||
  (decide (flt.end_to ≠ -1) && decide (tend > flt.end_to))

/-- Full exclusion boolean of event.c lines 186-199: the six plain clauses,
extended by the hash clause when a target hash is configured, which digests
the candidate record built from the parsed fields. -/
def event_scan_cond (cal : Cal) (flt : ItemFilter) (buf : List Nat) (tstart tend : Int)
    (id : Int) (note : Option (List Nat)) : Bool :=
  event_filter_cond flt buf tstart tend ||
  (match flt.hash with
   | some h =>
     !hash_matches h (event_hash cal { id := id, day := tstart, mesg := buf, note := note })
   | none => false)

/-- Discard decision of event.c line 201: discard when not inverted and the
exclusion boolean holds, or inverted and it does not. -/
def event_scan_reject (invert cond : Bool) : Bool :=
  (!invert && cond) || (invert && !cond)

/-- Normalization of the date context at event.c lines 172-177: zero the
time-of-day fields, mark daylight saving unknown, and rebase year and month
to the struct tm conventions, before handing the structure to mktime. -/
def event_scan_tm (start : Tm) : Tm :=
  { tm_year := start.tm_year - 1900, tm_mon := start.tm_mon - 1,
    tm_mday := start.tm_mday, tm_hour := 0, tm_min := 0, tm_sec := 0, tm_isdst := -1 }

/-- Outcome of one loader run: the error channel (NULL on success), the store
after the run, the unread remainder of the stream, and the next fresh tag. -/
structure ScanResult where
  err : Option String
  store : Store
  stream : List Nat
  ctr : Nat
deriving DecidableEq

/-- Filtered loader, event_scan of event.c lines 152-210: validate the date
context, read the description line, strip its newline, convert the date,
evaluate the filter (creating the record early when a target hash must be
digested, and unlinking it again on rejection), and commit the record to the
store exactly when it is kept. -/
def event_scan (cal : Cal) (f : List Nat) (start : Tm) (id : Int)
    (note : Option (List Nat)) (filter : Option ItemFilter)
    (store : Store) (ctr : Nat) : ScanResult :=
  if !(check_date start.tm_year start.tm_mon start.tm_mday &&
       check_time start.tm_hour start.tm_min) then
    { err := some "illegal date in event", store := store, stream := f, ctr := ctr }
  else
    match fgets BUFSIZ f with
    | none => { err := some "error in appointment description", store := store, stream := f, ctr := ctr }
    | some (buf0, rest) =>
      let buf := strip_newline buf0
      let tstart := cal.mktime (event_scan_tm start)
      if tstart = -1 then
        { err := some "date error in event\n", store := store, stream := rest, ctr := ctr }
      else
        let tend := ENDOFDAY tstart
        match filter with
        | none =>
          let r := event_new buf note tstart id store ctr
          { err := none, store := r.2.1, stream := rest, ctr := r.2.2 }
        | some flt =>
          match flt.hash with
          | none =>
            let cond := event_filter_cond flt buf tstart tend
            if event_scan_reject flt.invert cond then
              { err := none, store := store, stream := rest, ctr := ctr }
            else
              let r := event_new buf note tstart id store ctr
              { err := none, store := r.2.1, stream := rest, ctr := r.2.2 }
          | some h =>
            let r := event_new buf note tstart id store ctr
            let cond := event_filter_cond flt buf tstart tend ||
                        !hash_matches h (event_hash cal r.1.2)
            if event_scan_reject flt.invert cond then
              { err := none, store := (event_delete r.1.1 r.2.1).getD r.2.1,
                stream := rest, ctr := r.2.2 }
            else
              { err := none, store := r.2.1, stream := rest, ctr := r.2.2 }

/-- Civil-calendar decomposition of a day count since 1970-01-01 into
(year, month, day), the standard era-based Gregorian algorithm on natural
numbers. -/
def civilFromDays (z : Nat) : Nat × Nat × Nat :=
  let z' := z + 719468
  let era := z' / 146097
  let doe := z' % 146097
  let yoe := (doe - doe / 1460 + doe / 36524 - doe / 146096) / 365
  let y := yoe + era * 400
  let doy := doe - (365 * yoe + yoe / 4 - yoe / 100)
  let mp := (5 * doy + 2) / 153
  let d := doy - (153 * mp + 2) / 5 + 1
  let m := if mp < 10 then mp + 3 else mp - 9
  (if m ≤ 2 then y + 1 else y, m, d)

/-- Civil-calendar composition of (year, month, day) into a day count since
1970-01-01, inverse of `civilFromDays` on the supported era. -/
def daysFromCivil (y m d : Nat) : Nat :=
  let y' := if m ≤ 2 then y - 1 else y
  let era := y' / 400
  let yoe := y' % 400
  let mp := (m + 9) % 12
  let doy := (153 * mp + 2) / 5 + d - 1
  let doe := yoe * 365 + yoe / 4 - yoe / 100 + doy
  era * 146097 + doe - 719468

/-- Modelled from the spec: a concrete instance of the calendar collaborators,
the Gregorian calendar in UTC restricted to timestamps from 1970 on; it
instantiates the `Cal` parameter when theorems are exercised at concrete
dates. -/
def calUTC : Cal where
  localtime := fun t =>
    let tn := t.toNat
    let c := civilFromDays (tn / 86400)
    { tm_year := (c.1 : Int) - 1900, tm_mon := (c.2.1 : Int) - 1,
      tm_mday := (c.2.2 : Int), tm_hour := ((tn % 86400) / 3600 : Nat),
      tm_min := ((tn % 3600) / 60 : Nat), tm_sec := (tn % 60 : Nat), tm_isdst := 0 }
  mktime := fun tm =>
    if 1970 ≤ tm.tm_year + 1900 ∧ 1 ≤ tm.tm_mon + 1 ∧ tm.tm_mon + 1 ≤ 12 ∧
       1 ≤ tm.tm_mday ∧ tm.tm_mday ≤ 31 ∧
       0 ≤ tm.tm_hour ∧ tm.tm_hour < 24 ∧ 0 ≤ tm.tm_min ∧ tm.tm_min < 60 ∧
       0 ≤ tm.tm_sec ∧ tm.tm_sec < 60 then
      (daysFromCivil (tm.tm_year + 1900).toNat (tm.tm_mon + 1).toNat tm.tm_mday.toNat : Int)
        * 86400 + tm.tm_hour * 3600 + tm.tm_min * 60 + tm.tm_sec
    else -1

/-- Byte-wise lexicographic strict order on messages, stated directly from
the claims' wording: smaller byte at the first differing position, or proper
prefix. -/
def bytes_lex_lt : List Nat → List Nat → Bool
  | [], [] => false
  | [], _ :: _ => true
  | _ :: _, [] => false
  | a :: as, b :: bs => decide (a < b) || (decide (a = b) && bytes_lex_lt as bs)

/-- The store order stated from the claims: day ascending first, ties broken
by byte-wise lexicographic comparison of the message, ascending. -/
def eventKeyLe (a b : Event) : Prop :=
  a.day < b.day ∨ (a.day = b.day ∧ (bytes_lex_lt a.mesg b.mesg = true ∨ a.mesg = b.mesg))

theorem strcmp_le_iff : ∀ a b : List Nat,
    strcmp a b ≤ 0 ↔ (bytes_lex_lt a b = true ∨ a = b)
  | [], [] => by simp [strcmp, bytes_lex_lt]
  | [], _ :: _ => by simp [strcmp, bytes_lex_lt]
  | _ :: _, [] => by simp [strcmp, bytes_lex_lt]
  | a :: as, b :: bs => by
    simp only [strcmp, bytes_lex_lt]
    rcases Nat.lt_trichotomy a b with h | h | h
    · rw [if_pos h]
      simp [h]
    · subst h
      rw [if_neg (Nat.lt_irrefl a), if_neg (Nat.lt_irrefl a)]
      simp [strcmp_le_iff as bs]
    · rw [if_neg (Nat.lt_asymm h), if_pos h]
      simp [Nat.lt_asymm h, Nat.ne_of_gt h]

theorem strcmp_neg : ∀ a b : List Nat, strcmp a b = -strcmp b a
  | [], [] => rfl
  | [], _ :: _ => rfl
  | _ :: _, [] => rfl
  | a :: as, b :: bs => by
    simp only [strcmp]
    rcases Nat.lt_trichotomy a b with h | h | h
    · rw [if_pos h, if_neg (Nat.lt_asymm h), if_pos h]
    · subst h
      rw [if_neg (Nat.lt_irrefl a), if_neg (Nat.lt_irrefl a), if_neg (Nat.lt_irrefl a),
        if_neg (Nat.lt_irrefl a)]
      exact strcmp_neg as bs
    · rw [if_neg (Nat.lt_asymm h), if_pos h, if_pos h]
      rfl

theorem strcmp_le_trans : ∀ a b c : List Nat,
    strcmp a b ≤ 0 → strcmp b c ≤ 0 → strcmp a c ≤ 0
  | [], _, [] => by simp [strcmp]
  | [], _, _ :: _ => by simp [strcmp]
  | _ :: _, [], [] => by simp [strcmp]
  | _ :: _, [], _ :: _ => by simp [strcmp]
  | _ :: _, _ :: _, [] => by simp [strcmp]
  | a :: as, b :: bs, c :: cs => by
    intro h1 h2
    simp only [strcmp] at h1 h2 ⊢
    by_cases hba : b < a
    · rw [if_neg (Nat.lt_asymm hba), if_pos hba] at h1; omega
    by_cases hcb : c < b
    · rw [if_neg (Nat.lt_asymm hcb), if_pos hcb] at h2; omega
    by_cases hac : a < c
    · rw [if_pos hac]; omega
    · have hca : ¬ c < a := by
        by_cases hab : a < b
        · by_cases hbc : b < c <;> omega
        · by_cases hbc : b < c <;> omega
      rw [if_neg hac, if_neg hca]
      have hab : a = b := by omega
      have hbc : b = c := by omega
      subst hab; subst hbc
      rw [if_neg (Nat.lt_irrefl a), if_neg (Nat.lt_irrefl a)] at h1 h2
      exact strcmp_le_trans as bs cs h1 h2

theorem event_cmp_neg (a b : Event) : event_cmp a b = -event_cmp b a := by
  unfold event_cmp
  rcases Int.lt_trichotomy a.day b.day with h | h | h
  · rw [if_pos h, if_neg (by omega : ¬ b.day < a.day), if_pos (by omega : b.day > a.day)]
  · rw [if_neg (by omega : ¬ a.day < b.day), if_neg (by omega : ¬ a.day > b.day),
      if_neg (by omega : ¬ b.day < a.day), if_neg (by omega : ¬ b.day > a.day)]
    exact strcmp_neg a.mesg b.mesg
  · rw [if_neg (by omega : ¬ a.day < b.day), if_pos (by omega : a.day > b.day),
      if_pos (by omega : b.day < a.day)]
    rfl

theorem event_cmp_le_iff (a b : Event) : event_cmp a b ≤ 0 ↔ eventKeyLe a b := by
  unfold event_cmp eventKeyLe
  rcases Int.lt_trichotomy a.day b.day with h | h | h
  · rw [if_pos h]
    simp [h]
  · rw [if_neg (by omega : ¬ a.day < b.day), if_neg (by omega : ¬ a.day > b.day)]
    simp [h, strcmp_le_iff a.mesg b.mesg]
  · rw [if_neg (by omega : ¬ a.day < b.day), if_pos (by omega : a.day > b.day)]
    constructor
    · intro hh
      exact absurd hh (by norm_num)
    · rintro (hlt | ⟨heq, -⟩) <;> omega

theorem event_cmp_le_trans (a b c : Event)
    (h1 : event_cmp a b ≤ 0) (h2 : event_cmp b c ≤ 0) : event_cmp a c ≤ 0 := by
  unfold event_cmp at h1 h2 ⊢
  by_cases hba : b.day < a.day
  · rw [if_neg (by omega : ¬ a.day < b.day), if_pos (by omega : a.day > b.day)] at h1; omega
  by_cases hcb : c.day < b.day
  · rw [if_neg (by omega : ¬ b.day < c.day), if_pos (by omega : b.day > c.day)] at h2; omega
  by_cases hac : a.day < c.day
  · rw [if_pos hac]; omega
  · have hab : a.day = b.day := by omega
    have hbc : b.day = c.day := by omega
    rw [if_neg (by omega : ¬ a.day < b.day), if_neg (by omega : ¬ a.day > b.day)] at h1
    rw [if_neg (by omega : ¬ b.day < c.day), if_neg (by omega : ¬ b.day > c.day)] at h2
    rw [if_neg hac, if_neg (by omega : ¬ a.day > c.day)]
    exact strcmp_le_trans a.mesg b.mesg c.mesg h1 h2

theorem mem_llist_add_sorted {α : Type} (cmp : α → α → Int) (e y : α) :
    ∀ l : List α, y ∈ llist_add_sorted cmp e l → y = e ∨ y ∈ l
  | [] => by simp [llist_add_sorted]
  | x :: xs => by
    simp only [llist_add_sorted]
    by_cases hc : cmp e x < 0
    · rw [if_pos hc]
      intro h
      rcases List.mem_cons.1 h with h | h
      · exact Or.inl h
      · exact Or.inr h
    · rw [if_neg hc]
      intro h
      rcases List.mem_cons.1 h with h | h
      · exact Or.inr (by simp [h])
      · rcases mem_llist_add_sorted cmp e y xs h with h | h
        · exact Or.inl h
        · exact Or.inr (List.mem_cons_of_mem _ h)

theorem llist_add_sorted_length {α : Type} (cmp : α → α → Int) (e : α) :
    ∀ l : List α, (llist_add_sorted cmp e l).length = l.length + 1
  | [] => rfl
  | x :: xs => by
    simp only [llist_add_sorted]
    by_cases hc : cmp e x < 0
    · rw [if_pos hc]; rfl
    · rw [if_neg hc]
      simp [llist_add_sorted_length cmp e xs]

theorem llist_add_sorted_ne {α : Type} (cmp : α → α → Int) (e : α) (l : List α) :
    llist_add_sorted cmp e l ≠ l := by
  intro h
  have h' := congrArg List.length h
  rw [llist_add_sorted_length] at h'
  omega

theorem map_snd_llist_add_sorted (p : Nat × Event) :
    ∀ s : Store, (llist_add_sorted event_cmp_data p s).map Prod.snd =
      llist_add_sorted event_cmp p.2 (s.map Prod.snd)
  | [] => rfl
  | x :: xs => by
    by_cases hc : event_cmp p.2 x.2 < 0
    · simp [llist_add_sorted, event_cmp_data, hc]
    · simp [llist_add_sorted, event_cmp_data, hc, map_snd_llist_add_sorted p xs]

theorem llist_add_sorted_pairwise (e : Event) :
    ∀ l : List Event, l.Pairwise (fun a b => event_cmp a b ≤ 0) →
      (llist_add_sorted event_cmp e l).Pairwise (fun a b => event_cmp a b ≤ 0)
  | [], _ => by simp [llist_add_sorted]
  | x :: xs, h => by
    rcases List.pairwise_cons.1 h with ⟨hx, hxs⟩
    simp only [llist_add_sorted]
    by_cases hc : event_cmp e x < 0
    · rw [if_pos hc]
      refine List.pairwise_cons.2 ⟨?_, h⟩
      intro y hy
      rcases List.mem_cons.1 hy with rfl | hy
      · exact le_of_lt hc
      · exact event_cmp_le_trans e x y (le_of_lt hc) (hx y hy)
    · rw [if_neg hc]
      refine List.pairwise_cons.2 ⟨?_, llist_add_sorted_pairwise e xs hxs⟩
      intro y hy
      rcases mem_llist_add_sorted event_cmp e y xs hy with rfl | hy
      · have hn := event_cmp_neg x y
        omega
      · exact hx y hy

theorem event_delete_eq_none_iff (tag : Nat) :
    ∀ s : Store, event_delete tag s = none ↔ tag ∉ s.map Prod.fst
  | [] => by simp [event_delete]
  | x :: xs => by
    simp only [event_delete]
    by_cases h : x.1 = tag
    · simp [h]
    · simp only [if_neg h, Option.map_eq_none', List.map_cons, List.mem_cons]
      rw [event_delete_eq_none_iff tag xs]
      constructor
      · rintro hn (h1 | h2)
        · exact h h1.symm
        · exact hn h2
      · intro hn h2
        exact hn (Or.inr h2)

theorem event_delete_append (tag : Nat) (ev : Event) (r : Store) :
    ∀ l : Store, tag ∉ l.map Prod.fst →
      event_delete tag (l ++ (tag, ev) :: r) = some (l ++ r)
  | [], _ => by simp [event_delete]
  | x :: l', h => by
    have hx : x.1 ≠ tag := by
      intro hh
      exact h (by simp [hh])
    have hl : tag ∉ l'.map Prod.fst := by
      intro hh
      exact h (by simp [hh])
    show event_delete tag (x :: (l' ++ (tag, ev) :: r)) = some (x :: (l' ++ r))
    simp only [event_delete, if_neg hx, event_delete_append tag ev r l' hl,
      Option.map_some']

theorem event_delete_add_sorted (tag : Nat) (ev : Event) :
    ∀ s : Store, tag ∉ s.map Prod.fst →
      event_delete tag (llist_add_sorted event_cmp_data (tag, ev) s) = some s
  | [], _ => by simp [llist_add_sorted, event_delete]
  | x :: xs, h => by
    have hx : x.1 ≠ tag := by
      intro hh
      exact h (by simp [hh])
    have hxs : tag ∉ xs.map Prod.fst := by
      intro hh
      exact h (by simp [hh])
    simp only [llist_add_sorted]
    by_cases hc : event_cmp_data (tag, ev) x < 0
    · rw [if_pos hc]
      simp [event_delete]
    · rw [if_neg hc]
      simp only [event_delete, if_neg hx, event_delete_add_sorted tag ev xs hxs,
        Option.map_some']

theorem fgets_take_newline : ∀ (m r : List Nat) (fuel : Nat), 10 ∉ m →
    m.length < fuel → fgets_take fuel (m ++ 10 :: r) = (m ++ [10], r)
  | _, _, 0, _, hlen => by omega
  | [], r, fuel + 1, _, _ => by simp [fgets_take]
  | a :: m', r, fuel + 1, h, hlen => by
    have ha : a ≠ 10 := by
      intro hh
      exact h (by simp [hh])
    have hm : 10 ∉ m' := by
      intro hh
      exact h (List.mem_cons_of_mem _ hh)
    show fgets_take (fuel + 1) (a :: (m' ++ 10 :: r)) = ((a :: m') ++ [10], r)
    simp only [fgets_take, if_neg ha,
      fgets_take_newline m' r fuel hm (by simpa using hlen), List.cons_append]

theorem fgets_take_full : ∀ (p rest : List Nat), 10 ∉ p →
    fgets_take p.length (p ++ rest) = (p, rest)
  | [], rest, _ => by simp [fgets_take]
  | a :: p', rest, h => by
    have ha : a ≠ 10 := by
      intro hh
      exact h (by simp [hh])
    have hp : 10 ∉ p' := by
      intro hh
      exact h (List.mem_cons_of_mem _ hh)
    show fgets_take (p'.length + 1) (a :: (p' ++ rest)) = (a :: p', rest)
    simp only [fgets_take, if_neg ha, fgets_take_full p' rest hp]

theorem strip_newline_append : ∀ (m r : List Nat), 10 ∉ m →
    strip_newline (m ++ 10 :: r) = m
  | [], r, _ => by simp [strip_newline]
  | a :: m', r, h => by
    have ha : a ≠ 10 := by
      intro hh
      exact h (by simp [hh])
    have hm : 10 ∉ m' := by
      intro hh
      exact h (List.mem_cons_of_mem _ hh)
    show strip_newline (a :: (m' ++ 10 :: r)) = a :: m'
    simp only [strip_newline, if_neg ha, strip_newline_append m' r hm]

theorem strip_newline_id : ∀ m : List Nat, 10 ∉ m → strip_newline m = m
  | [], _ => rfl
  | a :: m', h => by
    have ha : a ≠ 10 := by
      intro hh
      exact h (by simp [hh])
    have hm : 10 ∉ m' := by
      intro hh
      exact h (List.mem_cons_of_mem _ hh)
    simp only [strip_newline, if_neg ha, strip_newline_id m' hm]

theorem nat_digits_fuel_range : ∀ (fuel n d : Nat),
    d ∈ nat_digits_fuel fuel n → 48 ≤ d ∧ d ≤ 57
  | 0, _, _ => by simp [nat_digits_fuel]
  | fuel + 1, n, d => by
    simp only [nat_digits_fuel]
    by_cases h : n = 0
    · simp [h]
    · rw [if_neg h]
      intro hd
      rcases List.mem_append.1 hd with hd | hd
      · exact nat_digits_fuel_range fuel (n / 10) d hd
      · have hm : n % 10 < 10 := Nat.mod_lt _ (by omega)
        simp only [List.mem_singleton] at hd
        omega

theorem nat_tostr_range (n d : Nat) (h : d ∈ nat_tostr n) : 48 ≤ d ∧ d ≤ 57 := by
  unfold nat_tostr at h
  by_cases hn : n = 0
  · rw [if_pos hn] at h
    simp only [List.mem_singleton] at h
    omega
  · rw [if_neg hn] at h
    exact nat_digits_fuel_range n n d h

theorem newline_not_mem_pad_zeros (w n : Nat) : 10 ∉ pad_zeros w n := by
  intro h
  rcases List.mem_append.1 h with h | h
  · have := List.eq_of_mem_replicate h
    omega
  · have := nat_tostr_range n 10 h
    omega

theorem newline_not_mem_int_tostr (i : Int) : 10 ∉ int_tostr i := by
  unfold int_tostr
  by_cases h : i < 0
  · rw [if_pos h]
    intro hm
    rcases List.mem_cons.1 hm with hm | hm
    · omega
    · have := nat_tostr_range _ 10 hm
      omega
  · rw [if_neg h]
    intro hm
    have := nat_tostr_range _ 10 hm
    omega

theorem nat_digits_fuel_length : ∀ (fuel n k : Nat),
    n < 10 ^ k → (nat_digits_fuel fuel n).length ≤ k
  | 0, _, _, _ => by simp [nat_digits_fuel]
  | fuel + 1, n, k, h => by
    simp only [nat_digits_fuel]
    by_cases hn : n = 0
    · simp [hn]
    · rw [if_neg hn]
      have hk : k ≠ 0 := by
        intro hh
        rw [hh, pow_zero] at h
        omega
      obtain ⟨k', rfl⟩ : ∃ k', k = k' + 1 := ⟨k - 1, by omega⟩
      have hdiv : n / 10 < 10 ^ k' := by
        refine (Nat.div_lt_iff_lt_mul (by norm_num)).2 ?_
        calc n < 10 ^ (k' + 1) := h
        _ = 10 ^ k' * 10 := by rw [pow_succ]
      have ih := nat_digits_fuel_length fuel (n / 10) k' hdiv
      simp only [List.length_append, List.length_singleton]
      omega

theorem nat_tostr_length_le (n k : Nat) (hk : 1 ≤ k) (h : n < 10 ^ k) :
    (nat_tostr n).length ≤ k := by
  unfold nat_tostr
  by_cases hn : n = 0
  · simp [hn]
    omega
  · rw [if_neg hn]
    exact nat_digits_fuel_length n n k h

theorem pad_zeros_length (w n : Nat) (h : (nat_tostr n).length ≤ w) :
    (pad_zeros w n).length = w := by
  simp only [pad_zeros, List.length_append, List.length_replicate]
  omega

/-- One programmatic insertion into the Event Store: either a fresh creation
through event_new or a re-insertion of an owned record through
event_paste_item. -/
inductive StoreOp : Type
  | new (mesg : List Nat) (note : Option (List Nat)) (day : Int) (id : Int)
  | paste (tag : Nat) (ev : Event) (date : Int)

/-- Application of one insertion to the store and the allocation counter. -/
def applyOp : StoreOp → Store × Nat → Store × Nat
  | StoreOp.new m n d i, sc => ((event_new m n d i sc.1 sc.2).2.1, (event_new m n d i sc.1 sc.2).2.2)
  | StoreOp.paste t e d, sc => (event_paste_item t e d sc.1, sc.2)

/-- The store obtained by running a sequence of insertions against the
initially empty store. -/
def runOps (ops : List StoreOp) : Store × Nat :=
  ops.foldl (fun sc op => applyOp op sc) ([], 0)

theorem applyOp_pairwise (op : StoreOp) (sc : Store × Nat)
    (h : (sc.1.map Prod.snd).Pairwise (fun a b => event_cmp a b ≤ 0)) :
    (((applyOp op sc).1.map Prod.snd).Pairwise (fun a b => event_cmp a b ≤ 0)) := by
  rcases op with ⟨m, n, d, i⟩ | ⟨t, e, d⟩
  · show (((llist_add_sorted event_cmp_data _ sc.1).map Prod.snd).Pairwise _)
    rw [map_snd_llist_add_sorted]
    exact llist_add_sorted_pairwise _ _ h
  · show (((llist_add_sorted event_cmp_data _ sc.1).map Prod.snd).Pairwise _)
    rw [map_snd_llist_add_sorted]
    exact llist_add_sorted_pairwise _ _ h

theorem foldl_applyOp_pairwise (ops : List StoreOp) :
    ∀ sc : Store × Nat, (sc.1.map Prod.snd).Pairwise (fun a b => event_cmp a b ≤ 0) →
      (((ops.foldl (fun sc op => applyOp op sc) sc).1.map Prod.snd).Pairwise
        (fun a b => event_cmp a b ≤ 0)) := by
  induction ops with
  | nil => exact fun sc h => h
  | cons op ops ih =>
    intro sc h
    exact ih (applyOp op sc) (applyOp_pairwise op sc h)

/-- C1: records inserted into the Event Store through event_new or
event_paste_item, in any insertion order, come out totally ordered by day
ascending with ties broken by byte-wise lexicographic comparison of the
message ascending, and the identifier never takes part in the comparator. -/
theorem claim_C1_store_order (ops : List StoreOp) :
    (((runOps ops).1.map Prod.snd).Pairwise eventKeyLe) ∧
    (∀ (a b : Event) (i j : Int),
      event_cmp { a with id := i } { b with id := j } = event_cmp a b) := by
  constructor
  · have h := foldl_applyOp_pairwise ops ([], 0) (by simp)
    exact h.imp (fun hab => (event_cmp_le_iff _ _).1 hab)
  · intro a b i j
    rfl

/-- C6: event_hash of an event_dup copy equals the hash of the original, and
any two events agreeing on day, message, note and identifier hash alike: the
hash digests the canonical rendering, which is a function of those fields
only. -/
theorem claim_C6_hash_determinism (cal : Cal) (r a b : Event)
    (hday : a.day = b.day) (hmesg : a.mesg = b.mesg)
    (hnote : a.note = b.note) (hid : a.id = b.id) :
    event_hash cal (event_dup r) = event_hash cal r ∧
    event_hash cal a = event_hash cal b := by
  have hdup : event_dup r = r := by
    cases r with
    | mk id day mesg note => cases note <;> rfl
  have hab : a = b := by
    cases a
    cases b
    simp_all
  exact ⟨by rw [hdup], by rw [hab]⟩

/-- Witness for C6: the hash determinism theorem applied at a concrete record
and the concrete calendar. -/
theorem claim_C6_hash_determinism_witness :
    (⟨3, 1710460800, [97, 98], some [110]⟩ : Event).day =
      (⟨3, 1710460800, [97, 98], some [110]⟩ : Event).day ∧
    (⟨3, 1710460800, [97, 98], some [110]⟩ : Event).mesg =
      (⟨3, 1710460800, [97, 98], some [110]⟩ : Event).mesg ∧
    (⟨3, 1710460800, [97, 98], some [110]⟩ : Event).note =
      (⟨3, 1710460800, [97, 98], some [110]⟩ : Event).note ∧
    (⟨3, 1710460800, [97, 98], some [110]⟩ : Event).id =
      (⟨3, 1710460800, [97, 98], some [110]⟩ : Event).id ∧
    (event_hash calUTC (event_dup ⟨3, 1710460800, [97, 98], some [110]⟩) =
        event_hash calUTC ⟨3, 1710460800, [97, 98], some [110]⟩ ∧
      event_hash calUTC ⟨3, 1710460800, [97, 98], some [110]⟩ =
        event_hash calUTC ⟨3, 1710460800, [97, 98], some [110]⟩) :=
  ⟨rfl, rfl, rfl, rfl,
    claim_C6_hash_determinism calUTC ⟨3, 1710460800, [97, 98], some [110]⟩
      ⟨3, 1710460800, [97, 98], some [110]⟩ ⟨3, 1710460800, [97, 98], some [110]⟩
      rfl rfl rfl rfl⟩

/-- C8: event_delete removes exactly the identified record: deleting a record
present in the store whose tag is unique yields the store without it, after
which the store no longer contains the record, and a second delete of the
same record, like any delete of a record the store does not hold, hits the
fatal no-such-appointment exit. -/
theorem claim_C8_delete_contract (l r : Store) (tag : Nat) (ev : Event)
    (hl : tag ∉ l.map Prod.fst) (hr : tag ∉ r.map Prod.fst) :
    event_delete tag (l ++ (tag, ev) :: r) = some (l ++ r) ∧
    (tag, ev) ∉ l ++ r ∧
    event_delete tag (l ++ r) = none ∧
    (∀ s : Store, tag ∉ s.map Prod.fst → event_delete tag s = none) := by
  refine ⟨event_delete_append tag ev r l hl, ?_, ?_, ?_⟩
  · intro hmem
    rcases List.mem_append.1 hmem with h | h
    · exact hl (List.mem_map_of_mem Prod.fst h)
    · exact hr (List.mem_map_of_mem Prod.fst h)
  · refine (event_delete_eq_none_iff tag _).2 ?_
    intro h
    rw [List.map_append] at h
    rcases List.mem_append.1 h with h | h
    · exact hl h
    · exact hr h
  · intro s hs
    exact (event_delete_eq_none_iff tag s).2 hs

/-- Witness for C8: the deletion contract applied to a concrete two-record
store. -/
theorem claim_C8_delete_contract_witness :
    (3 : Nat) ∉ ([(1, ⟨1, 0, [97], none⟩)] : Store).map Prod.fst ∧
    (3 : Nat) ∉ ([(2, ⟨2, 0, [98], none⟩)] : Store).map Prod.fst ∧
    (event_delete 3 ([(1, ⟨1, 0, [97], none⟩)] ++ (3, ⟨3, 0, [99], none⟩) ::
        [(2, ⟨2, 0, [98], none⟩)]) =
      some ([(1, ⟨1, 0, [97], none⟩)] ++ [(2, ⟨2, 0, [98], none⟩)]) ∧
    (3, (⟨3, 0, [99], none⟩ : Event)) ∉
      ([(1, ⟨1, 0, [97], none⟩)] : Store) ++ [(2, ⟨2, 0, [98], none⟩)] ∧
    event_delete 3 (([(1, ⟨1, 0, [97], none⟩)] : Store) ++ [(2, ⟨2, 0, [98], none⟩)]) = none ∧
    (∀ s : Store, 3 ∉ s.map Prod.fst → event_delete 3 s = none)) :=
  ⟨by decide, by decide,
    claim_C8_delete_contract [(1, ⟨1, 0, [97], none⟩)] [(2, ⟨2, 0, [98], none⟩)] 3
      ⟨3, 0, [99], none⟩ (by decide) (by decide)⟩

/-- C2: the exclusion boolean cond of the filter step is true exactly when at
least one clause holds: the type mask lacks the event bit, a configured
regular expression fails to match the message, a configured range bound is
violated by the day-start or end-of-day timestamp, or a configured target
hash differs from the record's identity hash; in particular a filter whose
start_from is the midnight after the record's day rejects the record when
invert is false. -/
theorem claim_C2_filter_cond (cal : Cal) (flt : ItemFilter) (buf : List Nat)
    (tstart tend : Int) (id : Int) (note : Option (List Nat)) :
    (event_scan_cond cal flt buf tstart tend id note = true ↔
      (flt.type_mask &&& TYPE_MASK_EVNT = 0 ∨
       (∃ re, flt.regex = some re ∧ re buf = false) ∨
       (flt.start_from ≠ -1 ∧ tstart < flt.start_from) ∨
       (flt.start_to ≠ -1 ∧ tstart > flt.start_to) ∨
       (flt.end_from ≠ -1 ∧ tend < flt.end_from) ∨
       (flt.end_to ≠ -1 ∧ tend > flt.end_to) ∨
       (∃ h, flt.hash = some h ∧
         hash_matches h
           (event_hash cal { id := id, day := tstart, mesg := buf, note := note }) = false))) ∧
    (0 ≤ tstart → flt.start_from = tstart + DAYINSEC → flt.invert = false →
      event_scan_reject flt.invert (event_scan_cond cal flt buf tstart tend id note) = true) := by
  have hiff : event_scan_cond cal flt buf tstart tend id note = true ↔
      (flt.type_mask &&& TYPE_MASK_EVNT = 0 ∨
       (∃ re, flt.regex = some re ∧ re buf = false) ∨
       (flt.start_from ≠ -1 ∧ tstart < flt.start_from) ∨
       (flt.start_to ≠ -1 ∧ tstart > flt.start_to) ∨
       (flt.end_from ≠ -1 ∧ tend < flt.end_from) ∨
       (flt.end_to ≠ -1 ∧ tend > flt.end_to) ∨
       (∃ h, flt.hash = some h ∧
         hash_matches h
           (event_hash cal { id := id, day := tstart, mesg := buf, note := note }) = false)) := by
    cases hre : flt.regex <;> cases hh : flt.hash <;>
      simp [event_scan_cond, event_filter_cond, hre, hh, Bool.or_eq_true,
        decide_eq_true_eq, Bool.and_eq_true] <;> tauto
  refine ⟨hiff, ?_⟩
  intro ht hsf hinv
  have h86 : DAYINSEC = (86400 : Int) := rfl
  rw [h86] at hsf
  have hc : event_scan_cond cal flt buf tstart tend id note = true :=
    hiff.2 (Or.inr (Or.inr (Or.inl ⟨by omega, by omega⟩)))
  rw [hinv, hc]
  rfl

/-- Witness for C2: the midnight-after-the-day bound rejects a concrete
record when invert is false. -/
theorem claim_C2_filter_cond_witness :
    (0 : Int) ≤ 1710460800 ∧
    event_scan_reject false
      (event_scan_cond calUTC
        { type_mask := 1, regex := none, start_from := 1710460800 + DAYINSEC, start_to := -1,
          end_from := -1, end_to := -1, hash := none, invert := false }
        [97] 1710460800 (ENDOFDAY 1710460800) 7 none) = true :=
  ⟨by norm_num,
    (claim_C2_filter_cond calUTC
      { type_mask := 1, regex := none, start_from := 1710460800 + DAYINSEC, start_to := -1,
        end_from := -1, end_to := -1, hash := none, invert := false }
      [97] 1710460800 (ENDOFDAY 1710460800) 7 none).2 (by norm_num) rfl rfl⟩

/-- C3: for a fixed filter specification and candidate, the keep/discard
decision of event_scan with invert true is the pointwise negation of the
decision with invert false: on a run that reaches the filter step, the store
is left unchanged under one setting exactly when a record is committed under
the other, and the discard decision itself flips with the invert flag. -/
theorem claim_C3_invert (cal : Cal) (f : List Nat) (start : Tm) (id : Int)
    (note : Option (List Nat)) (flt : ItemFilter) (store : Store) (ctr : Nat)
    (buf0 rest : List Nat)
    (hcd : (check_date start.tm_year start.tm_mon start.tm_mday &&
            check_time start.tm_hour start.tm_min) = true)
    (hf : fgets BUFSIZ f = some (buf0, rest))
    (hmk : cal.mktime (event_scan_tm start) ≠ -1)
    (hfresh : ctr ∉ store.map Prod.fst) :
    ((event_scan cal f start id note (some { flt with invert := true }) store ctr).store =
        store ↔
      ¬ ((event_scan cal f start id note (some { flt with invert := false }) store ctr).store =
        store)) ∧
    (∀ c : Bool, event_scan_reject true c = !event_scan_reject false c) := by
  have hreject : ∀ c : Bool, event_scan_reject true c = !event_scan_reject false c := by
    intro c
    cases c <;> rfl
  refine ⟨?_, hreject⟩
  have hne : ∀ p : Nat × Event, llist_add_sorted event_cmp_data p store ≠ store :=
    fun p => llist_add_sorted_ne event_cmp_data p store
  obtain ⟨tmm, re, sf, st2, ef, et, hs, inv⟩ := flt
  have hrun : ∀ b : Bool,
      (event_scan cal f start id note
        (some { type_mask := tmm, regex := re, start_from := sf, start_to := st2,
                end_from := ef, end_to := et, hash := hs, invert := b }) store ctr).store =
        if event_scan_reject b
            (event_scan_cond cal
              { type_mask := tmm, regex := re, start_from := sf, start_to := st2,
                end_from := ef, end_to := et, hash := hs, invert := inv }
              (strip_newline buf0) (cal.mktime (event_scan_tm start))
              (ENDOFDAY (cal.mktime (event_scan_tm start))) id note) = true then store
        else llist_add_sorted event_cmp_data
          (ctr, { id := id, day := cal.mktime (event_scan_tm start),
                  mesg := strip_newline buf0, note := note }) store := by
    intro b
    cases hs with
    | none =>
      simp only [event_scan, event_scan_cond, event_filter_cond, hcd, Bool.not_true,
        Bool.false_eq_true, if_false, hf, if_neg hmk, event_new, Bool.or_false]
      split
      · rfl
      · rfl
    | some h =>
      simp only [event_scan, event_scan_cond, event_filter_cond, hcd, Bool.not_true,
        Bool.false_eq_true, if_false, hf, if_neg hmk, event_new, Bool.or_false]
      split
      · show (event_delete ctr _).getD _ = store
        rw [event_delete_add_sorted ctr _ store hfresh]
        rfl
      · rfl
  rw [hrun true, hrun false]
  rcases Bool.eq_false_or_eq_true (event_scan_cond cal
      { type_mask := tmm, regex := re, start_from := sf, start_to := st2,
        end_from := ef, end_to := et, hash := hs, invert := inv }
      (strip_newline buf0) (cal.mktime (event_scan_tm start))
      (ENDOFDAY (cal.mktime (event_scan_tm start))) id note) with hC | hC <;>
    rw [hC] <;> simp [event_scan_reject, hne]

/-- Witness for C3: the inversion law applied to a concrete run that keeps
the record when inverted and drops it otherwise. -/
theorem claim_C3_invert_witness :
    (check_date (2024 : Int) 3 15 && check_time 0 0) = true ∧
    fgets BUFSIZ [97, 10] = some ([97, 10], []) ∧
    calUTC.mktime (event_scan_tm
      { tm_year := 2024, tm_mon := 3, tm_mday := 15, tm_hour := 0, tm_min := 0,
        tm_sec := 0, tm_isdst := 0 }) ≠ -1 ∧
    (((event_scan calUTC [97, 10]
        { tm_year := 2024, tm_mon := 3, tm_mday := 15, tm_hour := 0, tm_min := 0,
          tm_sec := 0, tm_isdst := 0 } 7 none
        (some { type_mask := 1, regex := none, start_from := -1, start_to := -1,
                end_from := -1, end_to := -1, hash := none, invert := true }) [] 0).store =
          ([] : Store) ↔
      ¬ ((event_scan calUTC [97, 10]
        { tm_year := 2024, tm_mon := 3, tm_mday := 15, tm_hour := 0, tm_min := 0,
          tm_sec := 0, tm_isdst := 0 } 7 none
        (some { type_mask := 1, regex := none, start_from := -1, start_to := -1,
                end_from := -1, end_to := -1, hash := none, invert := false }) [] 0).store =
          ([] : Store))) ∧
    (∀ c : Bool, event_scan_reject true c = !event_scan_reject false c)) :=
  ⟨by decide, by decide, by decide,
    claim_C3_invert calUTC [97, 10]
      { tm_year := 2024, tm_mon := 3, tm_mday := 15, tm_hour := 0, tm_min := 0,
        tm_sec := 0, tm_isdst := 0 } 7 none
      { type_mask := 1, regex := none, start_from := -1, start_to := -1,
        end_from := -1, end_to := -1, hash := none, invert := false } [] 0 [97, 10] []
      (by decide) (by decide) (by decide) (by decide)⟩

theorem event_scan_bad_date (cal : Cal) (f : List Nat) (start : Tm) (id : Int)
    (note : Option (List Nat)) (filter : Option ItemFilter) (store : Store) (ctr : Nat)
    (hcd : (check_date start.tm_year start.tm_mon start.tm_mday &&
      check_time start.tm_hour start.tm_min) = false) :
    event_scan cal f start id note filter store ctr =
      { err := some "illegal date in event", store := store, stream := f, ctr := ctr } := by
  simp only [event_scan, hcd, Bool.not_false, if_true]

theorem event_scan_no_line (cal : Cal) (f : List Nat) (start : Tm) (id : Int)
    (note : Option (List Nat)) (filter : Option ItemFilter) (store : Store) (ctr : Nat)
    (hcd : (check_date start.tm_year start.tm_mon start.tm_mday &&
      check_time start.tm_hour start.tm_min) = true)
    (hf : fgets BUFSIZ f = none) :
    event_scan cal f start id note filter store ctr =
      { err := some "error in appointment description", store := store, stream := f,
        ctr := ctr } := by
  simp only [event_scan, hcd, Bool.not_true, Bool.false_eq_true, if_false, hf]

theorem event_scan_bad_mk (cal : Cal) (f : List Nat) (start : Tm) (id : Int)
    (note : Option (List Nat)) (filter : Option ItemFilter) (store : Store) (ctr : Nat)
    (buf0 rest : List Nat)
    (hcd : (check_date start.tm_year start.tm_mon start.tm_mday &&
      check_time start.tm_hour start.tm_min) = true)
    (hf : fgets BUFSIZ f = some (buf0, rest))
    (hmk : cal.mktime (event_scan_tm start) = -1) :
    event_scan cal f start id note filter store ctr =
      { err := some "date error in event\n", store := store, stream := rest, ctr := ctr } := by
  simp only [event_scan, hcd, Bool.not_true, Bool.false_eq_true, if_false, hf, hmk, if_pos]

theorem event_scan_no_filter (cal : Cal) (f : List Nat) (start : Tm) (id : Int)
    (note : Option (List Nat)) (store : Store) (ctr : Nat) (buf0 rest : List Nat)
    (hcd : (check_date start.tm_year start.tm_mon start.tm_mday &&
      check_time start.tm_hour start.tm_min) = true)
    (hf : fgets BUFSIZ f = some (buf0, rest))
    (hmk : cal.mktime (event_scan_tm start) ≠ -1) :
    event_scan cal f start id note none store ctr =
      { err := none,
        store := llist_add_sorted event_cmp_data
          (ctr, { id := id, day := cal.mktime (event_scan_tm start),
                  mesg := strip_newline buf0, note := note }) store,
        stream := rest, ctr := ctr + 1 } := by
  simp only [event_scan, hcd, Bool.not_true, Bool.false_eq_true, if_false, hf,
    if_neg hmk, event_new]

theorem event_scan_keep (cal : Cal) (f : List Nat) (start : Tm) (id : Int)
    (note : Option (List Nat)) (flt : ItemFilter) (store : Store) (ctr : Nat)
    (buf0 rest : List Nat)
    (hcd : (check_date start.tm_year start.tm_mon start.tm_mday &&
      check_time start.tm_hour start.tm_min) = true)
    (hf : fgets BUFSIZ f = some (buf0, rest))
    (hmk : cal.mktime (event_scan_tm start) ≠ -1)
    (hrej : event_scan_reject flt.invert
      (event_scan_cond cal flt (strip_newline buf0) (cal.mktime (event_scan_tm start))
        (ENDOFDAY (cal.mktime (event_scan_tm start))) id note) = false) :
    (event_scan cal f start id note (some flt) store ctr).err = none ∧
    (event_scan cal f start id note (some flt) store ctr).store =
      llist_add_sorted event_cmp_data
        (ctr, { id := id, day := cal.mktime (event_scan_tm start),
                mesg := strip_newline buf0, note := note }) store := by
  cases hh : flt.hash with
  | none =>
    simp only [event_scan_cond, hh, Bool.or_false] at hrej
    simp only [event_scan, hcd, Bool.not_true, Bool.false_eq_true, if_false, hf,
      if_neg hmk, event_new, hh, hrej, if_false]
    exact ⟨trivial, trivial⟩
  | some h =>
    simp only [event_scan_cond, hh] at hrej
    simp only [event_scan, hcd, Bool.not_true, Bool.false_eq_true, if_false, hf,
      if_neg hmk, event_new, hh, hrej, if_false]
    exact ⟨trivial, trivial⟩

theorem event_scan_rejected (cal : Cal) (f : List Nat) (start : Tm) (id : Int)
    (note : Option (List Nat)) (flt : ItemFilter) (store : Store) (ctr : Nat)
    (buf0 rest : List Nat)
    (hfresh : ctr ∉ store.map Prod.fst)
    (hcd : (check_date start.tm_year start.tm_mon start.tm_mday &&
      check_time start.tm_hour start.tm_min) = true)
    (hf : fgets BUFSIZ f = some (buf0, rest))
    (hmk : cal.mktime (event_scan_tm start) ≠ -1)
    (hrej : event_scan_reject flt.invert
      (event_scan_cond cal flt (strip_newline buf0) (cal.mktime (event_scan_tm start))
        (ENDOFDAY (cal.mktime (event_scan_tm start))) id note) = true) :
    (event_scan cal f start id note (some flt) store ctr).err = none ∧
    (event_scan cal f start id note (some flt) store ctr).store = store := by
  cases hh : flt.hash with
  | none =>
    simp only [event_scan_cond, hh, Bool.or_false] at hrej
    simp only [event_scan, hcd, Bool.not_true, Bool.false_eq_true, if_false, hf,
      if_neg hmk, event_new, hh, hrej, if_true]
    exact ⟨trivial, trivial⟩
  | some h =>
    simp only [event_scan_cond, hh] at hrej
    simp only [event_scan, hcd, Bool.not_true, Bool.false_eq_true, if_false, hf,
      if_neg hmk, event_new, hh, hrej, if_true]
    refine ⟨trivial, ?_⟩
    show (event_delete ctr _).getD _ = store
    rw [event_delete_add_sorted ctr _ store hfresh]
    rfl

theorem event_scan_master (cal : Cal) (f : List Nat) (start : Tm) (id : Int)
    (note : Option (List Nat)) (filter : Option ItemFilter) (store : Store) (ctr : Nat)
    (hfresh : ctr ∉ store.map Prod.fst) :
    ((event_scan cal f start id note filter store ctr).err ≠ none ∧
      (event_scan cal f start id note filter store ctr).store = store) ∨
    ((event_scan cal f start id note filter store ctr).err = none ∧
      ((event_scan cal f start id note filter store ctr).store = store ∨
        ∃ ev : Event, (event_scan cal f start id note filter store ctr).store =
          llist_add_sorted event_cmp_data (ctr, ev) store)) := by
  by_cases hcd : (check_date start.tm_year start.tm_mon start.tm_mday &&
      check_time start.tm_hour start.tm_min) = true
  · cases hfg : fgets BUFSIZ f with
    | none =>
      rw [event_scan_no_line cal f start id note filter store ctr hcd hfg]
      exact Or.inl ⟨by simp, rfl⟩
    | some p =>
      by_cases hmk : cal.mktime (event_scan_tm start) = -1
      · rw [event_scan_bad_mk cal f start id note filter store ctr p.1 p.2 hcd (by simpa using hfg) hmk]
        exact Or.inl ⟨by simp, rfl⟩
      · cases filter with
        | none =>
          rw [event_scan_no_filter cal f start id note store ctr p.1 p.2 hcd
            (by simpa using hfg) hmk]
          exact Or.inr ⟨rfl, Or.inr ⟨_, rfl⟩⟩
        | some flt =>
          by_cases hrej : event_scan_reject flt.invert
              (event_scan_cond cal flt (strip_newline p.1) (cal.mktime (event_scan_tm start))
                (ENDOFDAY (cal.mktime (event_scan_tm start))) id note) = true
          · obtain ⟨h1, h2⟩ := event_scan_rejected cal f start id note flt store ctr p.1 p.2
              hfresh hcd (by simpa using hfg) hmk hrej
            exact Or.inr ⟨h1, Or.inl h2⟩
          · obtain ⟨h1, h2⟩ := event_scan_keep cal f start id note flt store ctr p.1 p.2
              hcd (by simpa using hfg) hmk (by simpa using hrej)
            exact Or.inr ⟨h1, Or.inr ⟨_, h2⟩⟩
  · rw [event_scan_bad_date cal f start id note filter store ctr (by simpa using hcd)]
    exact Or.inl ⟨by simp, rfl⟩

/-- C4: whenever event_scan does not commit a record, whether because it
returns an error string or because the filter rejects the candidate, the
Event Store at return equals the Event Store at entry; a record inserted
speculatively for hash filtering is unlinked again before the return, and a
run that does change the store commits exactly one record and reports
success. -/
theorem claim_C4_store_preserved (cal : Cal) (f : List Nat) (start : Tm) (id : Int)
    (note : Option (List Nat)) (filter : Option ItemFilter) (store : Store) (ctr : Nat)
    (hfresh : ctr ∉ store.map Prod.fst) :
    ((event_scan cal f start id note filter store ctr).err ≠ none →
      (event_scan cal f start id note filter store ctr).store = store) ∧
    ((event_scan cal f start id note filter store ctr).store = store ∨
      (∃ ev : Event, (event_scan cal f start id note filter store ctr).err = none ∧
        (event_scan cal f start id note filter store ctr).store =
          llist_add_sorted event_cmp_data (ctr, ev) store)) ∧
    (∀ (flt : ItemFilter) (buf0 rest : List Nat),
      filter = some flt →
      (check_date start.tm_year start.tm_mon start.tm_mday &&
        check_time start.tm_hour start.tm_min) = true →
      fgets BUFSIZ f = some (buf0, rest) →
      cal.mktime (event_scan_tm start) ≠ -1 →
      event_scan_reject flt.invert
        (event_scan_cond cal flt (strip_newline buf0) (cal.mktime (event_scan_tm start))
          (ENDOFDAY (cal.mktime (event_scan_tm start))) id note) = true →
      (event_scan cal f start id note filter store ctr).store = store) := by
  refine ⟨?_, ?_, ?_⟩
  · intro herr
    rcases event_scan_master cal f start id note filter store ctr hfresh with ⟨-, h⟩ | ⟨h1, -⟩
    · exact h
    · exact absurd h1 herr
  · rcases event_scan_master cal f start id note filter store ctr hfresh with ⟨-, h⟩ | ⟨h1, h2⟩
    · exact Or.inl h
    · rcases h2 with h2 | ⟨ev, h2⟩
      · exact Or.inl h2
      · exact Or.inr ⟨ev, h1, h2⟩
  · intro flt buf0 rest hfil hcd hf hmk hrej
    subst hfil
    exact (event_scan_rejected cal f start id note flt store ctr buf0 rest
      hfresh hcd hf hmk hrej).2

/-- Witness for C4: store preservation applied to a concrete rejected run. -/
theorem claim_C4_store_preserved_witness :
    (0 : Nat) ∉ ([] : Store).map Prod.fst ∧
    (((event_scan calUTC [97, 10]
        { tm_year := 2024, tm_mon := 3, tm_mday := 15, tm_hour := 0, tm_min := 0,
          tm_sec := 0, tm_isdst := 0 } 7 none
        (some { type_mask := 0, regex := none, start_from := -1, start_to := -1,
                end_from := -1, end_to := -1, hash := none, invert := false }) [] 0).err ≠ none →
      (event_scan calUTC [97, 10]
        { tm_year := 2024, tm_mon := 3, tm_mday := 15, tm_hour := 0, tm_min := 0,
          tm_sec := 0, tm_isdst := 0 } 7 none
        (some { type_mask := 0, regex := none, start_from := -1, start_to := -1,
                end_from := -1, end_to := -1, hash := none, invert := false }) [] 0).store = []) ∧
    ((event_scan calUTC [97, 10]
        { tm_year := 2024, tm_mon := 3, tm_mday := 15, tm_hour := 0, tm_min := 0,
          tm_sec := 0, tm_isdst := 0 } 7 none
        (some { type_mask := 0, regex := none, start_from := -1, start_to := -1,
                end_from := -1, end_to := -1, hash := none, invert := false }) [] 0).store = [] ∨
      (∃ ev : Event, (event_scan calUTC [97, 10]
        { tm_year := 2024, tm_mon := 3, tm_mday := 15, tm_hour := 0, tm_min := 0,
          tm_sec := 0, tm_isdst := 0 } 7 none
        (some { type_mask := 0, regex := none, start_from := -1, start_to := -1,
                end_from := -1, end_to := -1, hash := none, invert := false }) [] 0).err = none ∧
        (event_scan calUTC [97, 10]
        { tm_year := 2024, tm_mon := 3, tm_mday := 15, tm_hour := 0, tm_min := 0,
          tm_sec := 0, tm_isdst := 0 } 7 none
        (some { type_mask := 0, regex := none, start_from := -1, start_to := -1,
                end_from := -1, end_to := -1, hash := none, invert := false }) [] 0).store =
          llist_add_sorted event_cmp_data (0, ev) [])) ∧
    (∀ (flt : ItemFilter) (buf0 rest : List Nat),
      (some { type_mask := 0, regex := none, start_from := -1, start_to := -1,
              end_from := -1, end_to := -1, hash := none,
              invert := false } : Option ItemFilter) = some flt →
      (check_date (2024 : Int) 3 15 && check_time 0 0) = true →
      fgets BUFSIZ [97, 10] = some (buf0, rest) →
      calUTC.mktime (event_scan_tm
        { tm_year := 2024, tm_mon := 3, tm_mday := 15, tm_hour := 0, tm_min := 0,
          tm_sec := 0, tm_isdst := 0 }) ≠ -1 →
      event_scan_reject flt.invert
        (event_scan_cond calUTC flt (strip_newline buf0)
          (calUTC.mktime (event_scan_tm
            { tm_year := 2024, tm_mon := 3, tm_mday := 15, tm_hour := 0, tm_min := 0,
              tm_sec := 0, tm_isdst := 0 }))
          (ENDOFDAY (calUTC.mktime (event_scan_tm
            { tm_year := 2024, tm_mon := 3, tm_mday := 15, tm_hour := 0, tm_min := 0,
              tm_sec := 0, tm_isdst := 0 }))) 7 none) = true →
      (event_scan calUTC [97, 10]
        { tm_year := 2024, tm_mon := 3, tm_mday := 15, tm_hour := 0, tm_min := 0,
          tm_sec := 0, tm_isdst := 0 } 7 none
        (some { type_mask := 0, regex := none, start_from := -1, start_to := -1,
                end_from := -1, end_to := -1, hash := none, invert := false }) [] 0).store =
        [])) :=
  ⟨by decide,
    claim_C4_store_preserved calUTC [97, 10]
      { tm_year := 2024, tm_mon := 3, tm_mday := 15, tm_hour := 0, tm_min := 0,
        tm_sec := 0, tm_isdst := 0 } 7 none
      (some { type_mask := 0, regex := none, start_from := -1, start_to := -1,
              end_from := -1, end_to := -1, hash := none, invert := false }) [] 0 (by decide)⟩

/-- Counterexample for C5: a record whose message embeds a newline does not
round-trip.  The renderer emits the message verbatim, so the line the load
path sees for this record is its message followed by the line terminator;
the loader's line read stops after the first newline byte, strips it, and
commits a record whose message is the truncation of the original at that
newline. -/
theorem claim_C5_roundtrip_cex :
    event_tostr calUTC ⟨7, 1710460800, [97, 10, 98], none⟩ =
      event_tostr calUTC
        { (⟨7, 1710460800, [97, 10, 98], none⟩ : Event) with mesg := [] } ++
        [97, 10, 98] ∧
    (event_scan calUTC ([97, 10, 98] ++ [10])
      { tm_year := 2024, tm_mon := 3, tm_mday := 15, tm_hour := 0, tm_min := 0,
        tm_sec := 0, tm_isdst := 0 } 7 none none [] 0).store =
      [(0, ⟨7, 1710460800, [97], none⟩)] ∧
    (event_scan calUTC ([97, 10, 98] ++ [10])
      { tm_year := 2024, tm_mon := 3, tm_mday := 15, tm_hour := 0, tm_min := 0,
        tm_sec := 0, tm_isdst := 0 } 7 none none [] 0).stream = [98, 10] ∧
    (⟨7, 1710460800, [97], none⟩ : Event).mesg ≠
      (⟨7, 1710460800, [97, 10, 98], none⟩ : Event).mesg := by
  decide

/-- C5 (amended): round-trip for a record with a day-granularity day whose
message is free of the newline byte and shorter than the line buffer: its
event_tostr rendering is the parsing context followed by the message
verbatim, and feeding the message line back through the load path with the
same identifier, note and date context commits a record whose day, message
and note equal the original's.  A message embedding a newline reloads
truncated at it, and a message of BUFSIZ - 1 bytes or more is truncated by
the bounded line read. -/
theorem claim_C5_roundtrip (cal : Cal) (o : Event) (store : Store) (ctr : Nat)
    (hcd : check_date (1900 + (cal.localtime o.day).tm_year)
      ((cal.localtime o.day).tm_mon + 1) (cal.localtime o.day).tm_mday = true)
    (hmk : cal.mktime
      { tm_year := (cal.localtime o.day).tm_year, tm_mon := (cal.localtime o.day).tm_mon,
        tm_mday := (cal.localtime o.day).tm_mday, tm_hour := 0, tm_min := 0, tm_sec := 0,
        tm_isdst := -1 } = o.day)
    (hday : o.day ≠ -1) (hnl : 10 ∉ o.mesg) (hlen : o.mesg.length + 1 < BUFSIZ) :
    event_scan cal (o.mesg ++ [10])
      { tm_year := 1900 + (cal.localtime o.day).tm_year,
        tm_mon := (cal.localtime o.day).tm_mon + 1,
        tm_mday := (cal.localtime o.day).tm_mday,
        tm_hour := 0, tm_min := 0, tm_sec := 0, tm_isdst := 0 } o.id o.note none store ctr =
      { err := none, store := llist_add_sorted event_cmp_data (ctr, o) store,
        stream := [], ctr := ctr + 1 } ∧
    event_tostr cal o = event_tostr cal { o with mesg := [] } ++ o.mesg := by
  constructor
  · have hct : check_time 0 0 = true := by decide
    have htm : event_scan_tm
        { tm_year := 1900 + (cal.localtime o.day).tm_year,
          tm_mon := (cal.localtime o.day).tm_mon + 1,
          tm_mday := (cal.localtime o.day).tm_mday,
          tm_hour := 0, tm_min := 0, tm_sec := 0, tm_isdst := 0 } =
        { tm_year := (cal.localtime o.day).tm_year, tm_mon := (cal.localtime o.day).tm_mon,
          tm_mday := (cal.localtime o.day).tm_mday, tm_hour := 0, tm_min := 0, tm_sec := 0,
          tm_isdst := -1 } := by
      simp only [event_scan_tm]
      congr 1 <;> omega
    have hlen' : o.mesg.length < 8191 := by
      have hb : BUFSIZ = 8192 := rfl
      omega
    have hfget : fgets BUFSIZ (o.mesg ++ [10]) = some (o.mesg ++ [10], []) := by
      unfold fgets
      rw [if_neg (by simp), show BUFSIZ - 1 = 8191 from rfl,
        fgets_take_newline o.mesg [] 8191 hnl hlen']
    have hmk' : cal.mktime (event_scan_tm
        { tm_year := 1900 + (cal.localtime o.day).tm_year,
          tm_mon := (cal.localtime o.day).tm_mon + 1,
          tm_mday := (cal.localtime o.day).tm_mday,
          tm_hour := 0, tm_min := 0, tm_sec := 0, tm_isdst := 0 }) ≠ -1 := by
      rw [htm, hmk]
      exact hday
    rw [event_scan_no_filter cal (o.mesg ++ [10]) _ o.id o.note store ctr (o.mesg ++ [10]) []
      (by rw [hcd, hct]; rfl) hfget hmk', htm, hmk, strip_newline_append o.mesg [] hnl]
  · cases hn : o.note <;> simp [event_tostr, hn, List.append_assoc]

/-- Witness for C5: the round trip applied to a concrete record of March 15
2024 under the concrete calendar. -/
theorem claim_C5_roundtrip_witness :
    check_date (1900 + (calUTC.localtime 1710460800).tm_year)
      ((calUTC.localtime 1710460800).tm_mon + 1) (calUTC.localtime 1710460800).tm_mday =
      true ∧
    calUTC.mktime
      { tm_year := (calUTC.localtime 1710460800).tm_year,
        tm_mon := (calUTC.localtime 1710460800).tm_mon,
        tm_mday := (calUTC.localtime 1710460800).tm_mday,
        tm_hour := 0, tm_min := 0, tm_sec := 0, tm_isdst := -1 } = 1710460800 ∧
    (event_scan calUTC ([68, 101, 110] ++ [10])
      { tm_year := 1900 + (calUTC.localtime 1710460800).tm_year,
        tm_mon := (calUTC.localtime 1710460800).tm_mon + 1,
        tm_mday := (calUTC.localtime 1710460800).tm_mday,
        tm_hour := 0, tm_min := 0, tm_sec := 0, tm_isdst := 0 } 7 (some [110, 116]) none [] 0 =
      { err := none,
        store := llist_add_sorted event_cmp_data
          (0, ⟨7, 1710460800, [68, 101, 110], some [110, 116]⟩) [],
        stream := [], ctr := 0 + 1 } ∧
    event_tostr calUTC ⟨7, 1710460800, [68, 101, 110], some [110, 116]⟩ =
      event_tostr calUTC
        { (⟨7, 1710460800, [68, 101, 110], some [110, 116]⟩ : Event) with mesg := [] } ++
        [68, 101, 110]) :=
  ⟨by decide, by decide,
    claim_C5_roundtrip calUTC ⟨7, 1710460800, [68, 101, 110], some [110, 116]⟩ [] 0
      (by decide) (by decide) (by decide) (by decide) (by decide)⟩

/-- Counterexample for C7: a record whose message embeds a newline renders
with that newline embedded, so event_tostr does not produce a newline-free
line for every record. -/
theorem claim_C7_line_cex :
    10 ∈ event_tostr calUTC { id := 1, day := 0, mesg := [97, 10, 98], note := none } := by
  decide

/-- C7 (amended): for every record whose message and note are free of the
newline byte, event_tostr produces a single newline-free line: the
zero-padded date field, the identifier in literal brackets, the note token
exactly when a note is attached, then the message verbatim with no escaping;
event_write appends exactly that line plus a single newline, the hash path
digests the same rendering, and the zero-padded fields keep their fixed
width whenever the printed values fit it. -/
theorem claim_C7_line_structure (cal : Cal) (o : Event) (file : List Nat)
    (hm : 10 ∉ o.mesg) (hn : ∀ nt, o.note = some nt → 10 ∉ nt) :
    10 ∉ event_tostr cal o ∧
    event_tostr cal o =
      pad_zeros 2 (u32 ((cal.localtime o.day).tm_mon + 1)) ++ [47] ++
      pad_zeros 2 (u32 (cal.localtime o.day).tm_mday) ++ [47] ++
      pad_zeros 4 (u32 (1900 + (cal.localtime o.day).tm_year)) ++ [32, 91] ++
      int_tostr o.id ++ [93, 32] ++
      (match o.note with | some nt => [62] ++ nt ++ [32] | none => []) ++ o.mesg ∧
    event_write cal o file = file ++ event_tostr cal o ++ [10] ∧
    event_hash cal o = sha1_digest (event_tostr cal o) ∧
    (∀ n : Nat, n < 100 → (pad_zeros 2 n).length = 2) ∧
    (∀ n : Nat, n < 10000 → (pad_zeros 4 n).length = 4) := by
  refine ⟨?_, rfl, rfl, rfl, ?_, ?_⟩
  · intro hmem
    cases hno : o.note with
    | none =>
      simp [event_tostr, hno, hm, newline_not_mem_pad_zeros,
        newline_not_mem_int_tostr] at hmem
    | some nt =>
      have hnt := hn nt hno
      simp [event_tostr, hno, hm, hnt, newline_not_mem_pad_zeros,
        newline_not_mem_int_tostr] at hmem
  · intro n h2
    exact pad_zeros_length 2 n (nat_tostr_length_le n 2 (by omega) (by simpa using h2))
  · intro n h4
    exact pad_zeros_length 4 n (nat_tostr_length_le n 4 (by omega) (by simpa using h4))

/-- Witness for C7: the amended line-structure theorem applied to a concrete
record with a note. -/
theorem claim_C7_line_structure_witness :
    10 ∉ ([72, 105] : List Nat) ∧
    (10 ∉ event_tostr calUTC ⟨42, 1710460800, [72, 105], some [110]⟩ ∧
    event_tostr calUTC ⟨42, 1710460800, [72, 105], some [110]⟩ =
      pad_zeros 2 (u32 ((calUTC.localtime
        (⟨42, 1710460800, [72, 105], some [110]⟩ : Event).day).tm_mon + 1)) ++ [47] ++
      pad_zeros 2 (u32 (calUTC.localtime
        (⟨42, 1710460800, [72, 105], some [110]⟩ : Event).day).tm_mday) ++ [47] ++
      pad_zeros 4 (u32 (1900 + (calUTC.localtime
        (⟨42, 1710460800, [72, 105], some [110]⟩ : Event).day).tm_year)) ++ [32, 91] ++
      int_tostr 42 ++ [93, 32] ++
      (match (some [110] : Option (List Nat)) with
       | some nt => [62] ++ nt ++ [32]
       | none => []) ++ [72, 105] ∧
    event_write calUTC ⟨42, 1710460800, [72, 105], some [110]⟩ [120] =
      [120] ++ event_tostr calUTC ⟨42, 1710460800, [72, 105], some [110]⟩ ++ [10] ∧
    event_hash calUTC ⟨42, 1710460800, [72, 105], some [110]⟩ =
      sha1_digest (event_tostr calUTC ⟨42, 1710460800, [72, 105], some [110]⟩) ∧
    (∀ n : Nat, n < 100 → (pad_zeros 2 n).length = 2) ∧
    (∀ n : Nat, n < 10000 → (pad_zeros 4 n).length = 4)) :=
  ⟨by decide,
    claim_C7_line_structure calUTC ⟨42, 1710460800, [72, 105], some [110]⟩ [120]
      (by decide)
      (by
        intro nt h
        injection h with h
        subst h
        decide)⟩

/-- Counterexample for C9: loading an empty description line succeeds and
stores a record whose message is the empty string, so neither creation nor
loading enforces message non-emptiness. -/
theorem claim_C9_nonempty_cex :
    (event_scan calUTC [10]
      { tm_year := 2024, tm_mon := 3, tm_mday := 15, tm_hour := 0, tm_min := 0,
        tm_sec := 0, tm_isdst := 0 } 7 none none [] 0).err = none ∧
    (event_scan calUTC [10]
      { tm_year := 2024, tm_mon := 3, tm_mday := 15, tm_hour := 0, tm_min := 0,
        tm_sec := 0, tm_isdst := 0 } 7 none none [] 0).store =
      [(0, { id := 7, day := 1710460800, mesg := [], note := none })] := by
  decide

/-- C9 (amended): the event core does not enforce message non-emptiness:
event_new stores exactly the message it is given, empty or not, and on an
empty description line event_scan succeeds and commits a record whose
message is the empty string; non-emptiness is an obligation of the callers,
not of this core. -/
theorem claim_C9_empty_message (cal : Cal) (start : Tm) (id : Int)
    (note : Option (List Nat)) (store : Store) (ctr : Nat)
    (hcd : (check_date start.tm_year start.tm_mon start.tm_mday &&
      check_time start.tm_hour start.tm_min) = true)
    (hmk : cal.mktime (event_scan_tm start) ≠ -1) :
    (event_scan cal [10] start id note none store ctr).err = none ∧
    (event_scan cal [10] start id note none store ctr).store =
      llist_add_sorted event_cmp_data
        (ctr, { id := id, day := cal.mktime (event_scan_tm start), mesg := [],
                note := note }) store ∧
    (∀ (m : List Nat) (nt : Option (List Nat)) (d i : Int) (s : Store) (c : Nat),
      (event_new m nt d i s c).1.2.mesg = m) := by
  have hf : fgets BUFSIZ [10] = some ([10], []) := by decide
  rw [event_scan_no_filter cal [10] start id note store ctr [10] [] hcd hf hmk]
  exact ⟨rfl, rfl, fun m nt d i s c => rfl⟩

/-- Witness for C9: the amended theorem applied at a concrete valid date
context. -/
theorem claim_C9_empty_message_witness :
    (check_date (2024 : Int) 3 15 && check_time 0 0) = true ∧
    ((event_scan calUTC [10]
      { tm_year := 2024, tm_mon := 3, tm_mday := 15, tm_hour := 0, tm_min := 0,
        tm_sec := 0, tm_isdst := 0 } 7 none none [] 0).err = none ∧
    (event_scan calUTC [10]
      { tm_year := 2024, tm_mon := 3, tm_mday := 15, tm_hour := 0, tm_min := 0,
        tm_sec := 0, tm_isdst := 0 } 7 none none [] 0).store =
      llist_add_sorted event_cmp_data
        (0, { id := 7,
              day := calUTC.mktime (event_scan_tm
                { tm_year := 2024, tm_mon := 3, tm_mday := 15, tm_hour := 0, tm_min := 0,
                  tm_sec := 0, tm_isdst := 0 }),
              mesg := [], note := none }) [] ∧
    (∀ (m : List Nat) (nt : Option (List Nat)) (d i : Int) (s : Store) (c : Nat),
      (event_new m nt d i s c).1.2.mesg = m)) :=
  ⟨by decide,
    claim_C9_empty_message calUTC
      { tm_year := 2024, tm_mon := 3, tm_mday := 15, tm_hour := 0, tm_min := 0,
        tm_sec := 0, tm_isdst := 0 } 7 none [] 0 (by decide) (by decide)⟩

/-- C10: the loader reads at most BUFSIZ - 1 bytes of the description line:
when the stream begins with BUFSIZ - 1 newline-free bytes, the scan succeeds
with no error, commits a record whose message is exactly those BUFSIZ - 1
bytes, and leaves the remainder of the stream unread for the next read. -/
theorem claim_C10_truncation (cal : Cal) (start : Tm) (id : Int)
    (note : Option (List Nat)) (store : Store) (ctr : Nat) (pre rest : List Nat)
    (hcd : (check_date start.tm_year start.tm_mon start.tm_mday &&
      check_time start.tm_hour start.tm_min) = true)
    (hlen : pre.length = BUFSIZ - 1) (hnl : 10 ∉ pre)
    (hmk : cal.mktime (event_scan_tm start) ≠ -1) :
    event_scan cal (pre ++ rest) start id note none store ctr =
      { err := none,
        store := llist_add_sorted event_cmp_data
          (ctr, { id := id, day := cal.mktime (event_scan_tm start), mesg := pre,
                  note := note }) store,
        stream := rest, ctr := ctr + 1 } := by
  have hpre : pre ≠ [] := by
    intro h
    rw [h] at hlen
    simp [BUFSIZ] at hlen
  have hf : fgets BUFSIZ (pre ++ rest) = some (pre, rest) := by
    unfold fgets
    rw [if_neg (by simp [hpre]), ← hlen]
    exact congrArg some (fgets_take_full pre rest hnl)
  rw [event_scan_no_filter cal (pre ++ rest) start id note store ctr pre rest hcd hf hmk,
    strip_newline_id pre hnl]

/-- Witness for C10: truncation applied to a stream whose line is longer than
BUFSIZ - 1 bytes. -/
theorem claim_C10_truncation_witness :
    (List.replicate 8191 97).length = BUFSIZ - 1 ∧
    10 ∉ List.replicate 8191 97 ∧
    event_scan calUTC (List.replicate 8191 97 ++ [98, 10])
      { tm_year := 2024, tm_mon := 3, tm_mday := 15, tm_hour := 0, tm_min := 0,
        tm_sec := 0, tm_isdst := 0 } 7 none none [] 0 =
      { err := none,
        store := llist_add_sorted event_cmp_data
          (0, { id := 7,
                day := calUTC.mktime (event_scan_tm
                  { tm_year := 2024, tm_mon := 3, tm_mday := 15, tm_hour := 0, tm_min := 0,
                    tm_sec := 0, tm_isdst := 0 }),
                mesg := List.replicate 8191 97, note := none }) [],
        stream := [98, 10], ctr := 0 + 1 } :=
  ⟨by rw [List.length_replicate]; rfl, by simp only [List.mem_replicate]; omega,
    claim_C10_truncation calUTC
      { tm_year := 2024, tm_mon := 3, tm_mday := 15, tm_hour := 0, tm_min := 0,
        tm_sec := 0, tm_isdst := 0 } 7 none [] 0 (List.replicate 8191 97) [98, 10]
      (by decide) (by rw [List.length_replicate]; rfl)
      (by simp only [List.mem_replicate]; omega) (by decide)⟩

end Calcurse
